import Mathlib

/-!
# Escrow ledger and registration engine: a shallow embedding

This file embeds, in Lean 4, the escrow/registration core of the IGCSE
Subject Reservation System together with the role-validation helpers of
`packages/validations/src/roles.ts`, the decision of the access-control
middleware, and the parent-student link check of the link service.

The escrow ledger, registration store, pricing policy, transaction
coordinator and withdrawal workflow are not implemented in the
repository: they exist only as schema sketches and prose in the planning
documents. The definitions below carrying a doc comment that starts with
`Modelled from the spec:` therefore follow the specification text
(sections 3, 4.1-4.5 and 7). Amounts of money are integer minor units
(`Nat`); signed price deltas are `Int`. Fallible operations return
`Except Err EngineState`; a failed operation carries no state, which is
the all-or-nothing rollback semantics the specification demands.
-/

namespace Reservation

/-- Modelled from the spec: the error taxonomy of section 7.
`InvalidAmount` covers the rejection of non-positive ledger amounts;
`CoreIncomplete` covers the checkout core-completeness failure, for which
the taxonomy of the specification names no dedicated code. -/
inductive Err where
  | InsufficientFunds
  | InvalidTransition
  | DuplicateRegistration
  | CoreSubjectLocked
  | ExternalNotAvailable
  | SessionNotActive
  | Unauthorized
  | NotFound
  | InvalidAmount
  | CoreIncomplete
  deriving DecidableEq

inductive TxType where
  | credit
  | debit
  deriving DecidableEq

/-- Modelled from the spec: the reasons an escrow transaction may carry. -/
inductive Reason where
  | drop
  | swap_refund
  | swap_charge
  | transfer_in
  | transfer_out
  | withdrawal
  | payment_applied
  deriving DecidableEq

/-- Modelled from the spec: an immutable, append-only escrow ledger entry.
The escrow row of a student is identified by the student, so the
transaction carries `studentId` in place of the foreign key `escrowId`. -/
structure EscrowTransaction where
  ttype : TxType
  amount : Nat
  reason : Reason
  studentId : Nat
  relatedRegistrationId : Option Nat
  initiatedBy : Nat
  deriving DecidableEq

inductive RegStatus where
  | pending_payment
  | confirmed
  | dropped
  deriving DecidableEq

inductive RegType where
  | in_school
  | external
  deriving DecidableEq

/-- Modelled from the spec: a registration row with its immutable price
snapshot. -/
structure Registration where
  id : Nat
  studentId : Nat
  sessionId : Nat
  subjectId : Nat
  registrationType : RegType
  priceAtRegistration : Nat
  status : RegStatus
  registeredBy : Nat
  deriving DecidableEq

inductive WithdrawalStatus where
  | pending
  | partially_fulfilled
  | fulfilled
  | rejected
  deriving DecidableEq

/-- Modelled from the spec: a withdrawal request; the escrow it draws on
is identified by the student. -/
structure WithdrawalRequest where
  id : Nat
  studentId : Nat
  requestedAmount : Nat
  releasedAmount : Option Nat
  status : WithdrawalStatus
  deriving DecidableEq

inductive SessionType where
  | june
  | november
  | january
  deriving DecidableEq

inductive SessionStatus where
  | draft
  | active
  | closed
  deriving DecidableEq

structure Session where
  id : Nat
  sessionType : SessionType
  status : SessionStatus
  deriving DecidableEq

structure Subject where
  id : Nat
  priceInSchool : Nat
  priceExternal : Option Nat
  isCore : Bool
  deriving DecidableEq

/-- Modelled from the spec: the read-only collaborators the engine
consults — subject catalog, session manager, identity provider (grades,
admin flag) and the approved parent-student link check. -/
structure Env where
  subjects : List Subject
  sessions : List Session
  grade : Nat → Nat
  parentLink : Nat → Nat → Bool
  isAdmin : Nat → Bool

/-- Modelled from the spec: the mutable state owned by the Ledger and the
Transaction Coordinator. Escrow balances are a total map with default 0,
observationally matching `getBalance`, which returns 0 for a student with
no escrow row yet. -/
structure EngineState where
  balances : Nat → Nat
  txns : List EscrowTransaction
  regs : List Registration
  withdrawals : List WithdrawalRequest
  nextId : Nat

def initState : EngineState :=
  { balances := fun _ => 0, txns := [], regs := [], withdrawals := [], nextId := 0 }

/-- Modelled from the spec: `getBalance(studentId)` — 0 for a student
with no escrow yet. -/
def getBalance (s : EngineState) (sid : Nat) : Nat := s.balances sid

def setBalance (s : EngineState) (sid v : Nat) : EngineState :=
  { s with balances := fun x => if x = sid then v else s.balances x }

/-- Modelled from the spec: `credit(studentId, amount, reason,
relatedIds, initiatedBy)` of the Escrow Ledger, which the repository does
not implement. Creates the escrow lazily (implicit in the total-map
encoding), appends a credit transaction and increases the balance; fails
only on a non-positive amount. -/
def credit (sid amount : Nat) (reason : Reason) (rel : Option Nat)
    (initBy : Nat) (s : EngineState) : Except Err EngineState :=
  if amount = 0 then .error .InvalidAmount
  else
    .ok { (setBalance s sid (getBalance s sid + amount)) with
          txns := { ttype := .credit, amount := amount, reason := reason,
                    studentId := sid, relatedRegistrationId := rel,
                    initiatedBy := initBy } :: s.txns }

/-- Modelled from the spec: `debit(studentId, amount, reason, relatedIds,
initiatedBy)` of the Escrow Ledger, which the repository does not
implement. Fails with `InsufficientFunds` if the amount exceeds the
balance; otherwise appends a debit transaction and decreases the
balance. -/
def debit (sid amount : Nat) (reason : Reason) (rel : Option Nat)
    (initBy : Nat) (s : EngineState) : Except Err EngineState :=
  if amount = 0 then .error .InvalidAmount
  else if getBalance s sid < amount then .error .InsufficientFunds
  else
    .ok { (setBalance s sid (getBalance s sid - amount)) with
          txns := { ttype := .debit, amount := amount, reason := reason,
                    studentId := sid, relatedRegistrationId := rel,
                    initiatedBy := initBy } :: s.txns }

/-- Modelled from the spec: `transfer` of the Escrow Ledger — one debit
plus one credit as a single atomic unit; both legs succeed or neither
does. -/
def transfer (fromSid toSid amount initBy : Nat) (s : EngineState) :
    Except Err EngineState :=
  match debit fromSid amount .transfer_out none initBy s with
  | .error e => .error e
  | .ok s1 => credit toSid amount .transfer_in none initBy s1

/-- Sum of the amounts of the credit transactions of one student. -/
def sumCredits (sid : Nat) : List EscrowTransaction → Nat
  | [] => 0
  | t :: ts =>
    (if t.studentId = sid ∧ t.ttype = .credit then t.amount else 0) + sumCredits sid ts

/-- Sum of the amounts of the debit transactions of one student. -/
def sumDebits (sid : Nat) : List EscrowTransaction → Nat
  | [] => 0
  | t :: ts =>
    (if t.studentId = sid ∧ t.ttype = .debit then t.amount else 0) + sumDebits sid ts

/-- Conservation: every balance equals the signed sum of the transactions
of that student. -/
def conserves (s : EngineState) : Prop :=
  ∀ sid, (getBalance s sid : Int) =
    (sumCredits sid s.txns : Int) - (sumDebits sid s.txns : Int)

theorem conserves_init : conserves initState := by
  intro sid
  simp [conserves, getBalance, initState, sumCredits, sumDebits]

theorem credit_ok_effects (sid a : Nat) (r : Reason) (rel : Option Nat) (u : Nat)
    (s s' : EngineState) (hok : credit sid a r rel u s = .ok s') :
    s'.balances = (fun x => if x = sid then s.balances sid + a else s.balances x) ∧
    s'.txns = { ttype := .credit, amount := a, reason := r, studentId := sid,
                relatedRegistrationId := rel, initiatedBy := u } :: s.txns ∧
    s'.regs = s.regs ∧ s'.withdrawals = s.withdrawals ∧ s'.nextId = s.nextId ∧
    a ≠ 0 := by
  unfold credit at hok
  split at hok
  · simp at hok
  next hne =>
    simp only [Except.ok.injEq] at hok
    subst hok
    simp [setBalance, getBalance]
    exact hne

theorem debit_ok_effects (sid a : Nat) (r : Reason) (rel : Option Nat) (u : Nat)
    (s s' : EngineState) (hok : debit sid a r rel u s = .ok s') :
    s'.balances = (fun x => if x = sid then s.balances sid - a else s.balances x) ∧
    s'.txns = { ttype := .debit, amount := a, reason := r, studentId := sid,
                relatedRegistrationId := rel, initiatedBy := u } :: s.txns ∧
    s'.regs = s.regs ∧ s'.withdrawals = s.withdrawals ∧ s'.nextId = s.nextId ∧
    a ≤ s.balances sid ∧ a ≠ 0 := by
  unfold debit at hok
  split at hok
  · simp at hok
  next hne =>
    split at hok
    · simp at hok
    next hge =>
      simp only [Except.ok.injEq] at hok
      subst hok
      simp only [getBalance] at hge
      simp [setBalance, getBalance]
      exact ⟨by omega, hne⟩

theorem credit_ok_conserves (sid a : Nat) (r : Reason) (rel : Option Nat) (u : Nat)
    (s s' : EngineState) (hok : credit sid a r rel u s = .ok s')
    (h : conserves s) : conserves s' := by
  obtain ⟨hb, ht, -, -, -, -⟩ := credit_ok_effects sid a r rel u s s' hok
  intro sid2
  have h2 := h sid2
  simp only [conserves, getBalance] at h2 ⊢
  simp only [hb, ht, sumCredits, sumDebits]
  by_cases hsd : sid2 = sid
  · subst hsd
    simp
    omega
  · have hsd2 : ¬(sid = sid2) := fun hh => hsd hh.symm
    simp [hsd, hsd2]
    omega

theorem debit_ok_conserves (sid a : Nat) (r : Reason) (rel : Option Nat) (u : Nat)
    (s s' : EngineState) (hok : debit sid a r rel u s = .ok s')
    (h : conserves s) : conserves s' := by
  obtain ⟨hb, ht, -, -, -, hle, -⟩ := debit_ok_effects sid a r rel u s s' hok
  intro sid2
  have h2 := h sid2
  simp only [conserves, getBalance] at h2 ⊢
  simp only [hb, ht, sumCredits, sumDebits]
  by_cases hsd : sid2 = sid
  · subst hsd
    simp
    omega
  · have hsd2 : ¬(sid = sid2) := fun hh => hsd hh.symm
    simp [hsd, hsd2]
    omega

/-- A state change that leaves the ledger fields untouched preserves
conservation. -/
theorem conserves_of_ledger_eq (s s' : EngineState)
    (hb : s'.balances = s.balances) (ht : s'.txns = s.txns)
    (h : conserves s) : conserves s' := by
  intro sid
  have h2 := h sid
  simp only [conserves, getBalance, hb, ht] at h2 ⊢
  exact h2

theorem transfer_ok_conserves (fromSid toSid amount initBy : Nat)
    (s s' : EngineState) (hok : transfer fromSid toSid amount initBy s = .ok s')
    (h : conserves s) : conserves s' := by
  unfold transfer at hok
  split at hok
  · simp at hok
  next s1 hdeb =>
    exact credit_ok_conserves _ _ _ _ _ _ _ hok
      (debit_ok_conserves _ _ _ _ _ _ _ hdeb h)

def findReg (s : EngineState) (rid : Nat) : Option Registration :=
  s.regs.find? (fun r => r.id == rid)

/-- Does a non-dropped registration exist for this (student, session,
subject) triple? -/
def hasNonDropped (s : EngineState) (sid sess subj : Nat) : Bool :=
  s.regs.any (fun r =>
    decide (r.studentId = sid ∧ r.sessionId = sess ∧ r.subjectId = subj ∧
            r.status ≠ .dropped))

/-- Number of non-dropped registrations for one (student, session,
subject) triple. -/
def countNonDropped (sid sess subj : Nat) (regs : List Registration) : Nat :=
  regs.countP (fun r =>
    decide (r.studentId = sid ∧ r.sessionId = sess ∧ r.subjectId = subj ∧
            r.status ≠ .dropped))

/-- Modelled from the spec: `create(...)` of the Registration Record
Store, which the repository does not implement — generalized over the
initial status because the Swap operation creates the replacement
registration directly in `confirmed`. Fails with `DuplicateRegistration`
if a non-dropped registration already exists for the triple. -/
def mkReg (sid sess subj : Nat) (rtype : RegType) (price : Nat)
    (st : RegStatus) (registeredBy : Nat) (s : EngineState) :
    Except Err EngineState :=
  if hasNonDropped s sid sess subj then .error .DuplicateRegistration
  else
    .ok { s with
          regs := { id := s.nextId, studentId := sid, sessionId := sess,
                    subjectId := subj, registrationType := rtype,
                    priceAtRegistration := price, status := st,
                    registeredBy := registeredBy } :: s.regs,
          nextId := s.nextId + 1 }

def updReg (rid : Nat) (f : Registration → Registration) (s : EngineState) :
    EngineState :=
  { s with regs := s.regs.map (fun r => if r.id == rid then f r else r) }

/-- Modelled from the spec: `confirm(registrationId)` of the Registration
Record Store — `pending_payment → confirmed`, otherwise
`InvalidTransition`. The update function is guarded by the status so that
it is the identity away from the transition it implements. -/
def confirmReg (rid : Nat) (s : EngineState) : Except Err EngineState :=
  match findReg s rid with
  | none => .error .NotFound
  | some r =>
    if r.status = .pending_payment then
      .ok (updReg rid
        (fun r0 => if r0.status = .pending_payment then { r0 with status := .confirmed } else r0) s)
    else .error .InvalidTransition

/-- Modelled from the spec: `drop(registrationId)` of the Registration
Record Store — `confirmed → dropped`, otherwise `InvalidTransition`. -/
def dropReg (rid : Nat) (s : EngineState) : Except Err EngineState :=
  match findReg s rid with
  | none => .error .NotFound
  | some r =>
    if r.status = .confirmed then
      .ok (updReg rid (fun r0 => { r0 with status := .dropped }) s)
    else .error .InvalidTransition

def findSubject (env : Env) (id : Nat) : Option Subject :=
  env.subjects.find? (fun x => x.id == id)

def findSession (env : Env) (id : Nat) : Option Session :=
  env.sessions.find? (fun x => x.id == id)

/-- Modelled from the spec: `requiredCoreSubjectIds(grade, sessionType)`
— the full set of core subjects when grade is 10 and the session type is
June, empty otherwise. -/
def requiredCoreSubjectIds (env : Env) (grade : Nat) (stype : SessionType) :
    List Nat :=
  if grade = 10 ∧ stype = .june then
    (env.subjects.filter (fun x => x.isCore)).map (fun x => x.id)
  else []

/-- Modelled from the spec: `validateCoreCompleteness` — the required
core subjects are a subset of the proposed set. -/
def validateCoreCompleteness (env : Env) (grade : Nat) (stype : SessionType)
    (proposed : List Nat) : Bool :=
  (requiredCoreSubjectIds env grade stype).all (fun i => proposed.contains i)

/-- Modelled from the spec: `isLocked(registration, studentGrade,
session)` — true iff the subject of the registration is core, the grade
is 10 and the session type is June. -/
def isLocked (env : Env) (r : Registration) (grade : Nat) (session : Session) :
    Bool :=
  match findSubject env r.subjectId with
  | some subj => subj.isCore && grade == 10 && session.sessionType == .june
  | none => false

/-- Modelled from the spec: `priceOf(subject, type)` — fails with
`ExternalNotAvailable` when the external price is null. -/
def priceOf (subj : Subject) (t : RegType) : Except Err Nat :=
  match t with
  | .in_school => .ok subj.priceInSchool
  | .external =>
    match subj.priceExternal with
    | some p => .ok p
    | none => .error .ExternalNotAvailable

/-- Modelled from the spec: `swapDelta(oldPrice, newPrice) = newPrice -
oldPrice` as a signed amount. -/
def swapDelta (oldPrice newPrice : Nat) : Int :=
  (newPrice : Int) - (oldPrice : Int)

/-- Modelled from the spec: the ownership check — the acting user is the
student, or an approved-linked parent of the student. -/
def owns (env : Env) (actingUser sid : Nat) : Bool :=
  actingUser == sid || env.parentLink actingUser sid

theorem mkReg_ok_effects (sid sess subj : Nat) (rtype : RegType) (price : Nat)
    (st : RegStatus) (rb : Nat) (s s' : EngineState)
    (hok : mkReg sid sess subj rtype price st rb s = .ok s') :
    s'.balances = s.balances ∧ s'.txns = s.txns ∧
    s'.withdrawals = s.withdrawals ∧
    s'.regs = { id := s.nextId, studentId := sid, sessionId := sess,
                subjectId := subj, registrationType := rtype,
                priceAtRegistration := price, status := st,
                registeredBy := rb } :: s.regs ∧
    hasNonDropped s sid sess subj = false := by
  unfold mkReg at hok
  split at hok
  · simp at hok
  next hdup =>
    simp only [Except.ok.injEq] at hok
    subst hok
    simp
    exact Bool.not_eq_true _ ▸ (by simpa using hdup)

theorem updReg_effects (rid : Nat) (f : Registration → Registration)
    (s : EngineState) :
    (updReg rid f s).balances = s.balances ∧ (updReg rid f s).txns = s.txns ∧
    (updReg rid f s).withdrawals = s.withdrawals ∧
    (updReg rid f s).nextId = s.nextId := by
  simp [updReg]

/-- Modelled from the spec: the Drop operation of the Transaction
Coordinator, which the repository does not implement. The lock check runs
first among the business validations so that a locked registration is
always rejected with `CoreSubjectLocked`, as the core-lock invariant of
the specification requires; the remaining validations (active session,
confirmed status, ownership) precede any mutation. On success the
registration is dropped and the price snapshot is credited back with
reason `drop`. -/
def dropOp (env : Env) (rid actingUser : Nat) (s : EngineState) :
    Except Err EngineState :=
  match findReg s rid with
  | none => .error .NotFound
  | some reg =>
    match findSession env reg.sessionId with
    | none => .error .NotFound
    | some session =>
      if isLocked env reg (env.grade reg.studentId) session then
        .error .CoreSubjectLocked
      else if session.status ≠ .active then .error .SessionNotActive
      else if reg.status ≠ .confirmed then .error .InvalidTransition
      else if owns env actingUser reg.studentId then
        match dropReg rid s with
        | .error e => .error e
        | .ok s1 =>
          credit reg.studentId reg.priceAtRegistration .drop (some rid)
            actingUser s1
      else .error .Unauthorized

/-- Modelled from the spec: the Swap operation of the Transaction
Coordinator (drop A, add B as one unit), which the repository does not
implement. When the positive delta is not covered by the escrow the
operation fails with `InsufficientFunds`: the asynchronous
pay-the-difference path is outside the engine. The post-swap
core-completeness re-check is subsumed by the lock check, since removing
a core subject for grade 10 in June is exactly the locked case. -/
def swapOp (env : Env) (rid newSubjId : Nat) (newType : RegType)
    (actingUser : Nat) (s : EngineState) : Except Err EngineState :=
  match findReg s rid with
  | none => .error .NotFound
  | some reg =>
    match findSession env reg.sessionId with
    | none => .error .NotFound
    | some session =>
      if isLocked env reg (env.grade reg.studentId) session then
        .error .CoreSubjectLocked
      else
        match findSubject env newSubjId with
        | none => .error .NotFound
        | some subjB =>
          if session.status ≠ .active then .error .SessionNotActive
          else if reg.status ≠ .confirmed then .error .InvalidTransition
          else if hasNonDropped s reg.studentId reg.sessionId newSubjId then
            .error .DuplicateRegistration
          else if owns env actingUser reg.studentId then
            match priceOf subjB newType with
            | .error e => .error e
            | .ok priceB =>
              match dropReg rid s with
              | .error e => .error e
              | .ok s1 =>
                if 0 < swapDelta reg.priceAtRegistration priceB then
                  if (swapDelta reg.priceAtRegistration priceB).toNat ≤
                      getBalance s1 reg.studentId then
                    match debit reg.studentId
                        (swapDelta reg.priceAtRegistration priceB).toNat
                        .swap_charge (some rid) actingUser s1 with
                    | .error e => .error e
                    | .ok s2 =>
                      mkReg reg.studentId reg.sessionId newSubjId newType
                        priceB .confirmed actingUser s2
                  else .error .InsufficientFunds
                else if swapDelta reg.priceAtRegistration priceB < 0 then
                  match mkReg reg.studentId reg.sessionId newSubjId newType
                      priceB .confirmed actingUser s1 with
                  | .error e => .error e
                  | .ok s2 =>
                    credit reg.studentId
                      (-(swapDelta reg.priceAtRegistration priceB)).toNat
                      .swap_refund (some rid) actingUser s2
                else
                  mkReg reg.studentId reg.sessionId newSubjId newType priceB
                    .confirmed actingUser s1
          else .error .Unauthorized

/-- The row update performed by the switch-registration-type operation:
the price snapshot and the type change on the existing row. -/
def switchUpd (rid : Nat) (newType : RegType) (newPrice : Nat)
    (s : EngineState) : EngineState :=
  updReg rid
    (fun r0 =>
      { r0 with registrationType := newType, priceAtRegistration := newPrice }) s

/-- Modelled from the spec: the switch-registration-type operation of the
Transaction Coordinator — identical delta logic to Swap but on the same
subject, updating the price snapshot and type on the existing row as one
unit with the ledger entry. -/
def switchTypeOp (env : Env) (rid : Nat) (newType : RegType)
    (actingUser : Nat) (s : EngineState) : Except Err EngineState :=
  match findReg s rid with
  | none => .error .NotFound
  | some reg =>
    match findSession env reg.sessionId with
    | none => .error .NotFound
    | some session =>
      if isLocked env reg (env.grade reg.studentId) session then
        .error .CoreSubjectLocked
      else
        match findSubject env reg.subjectId with
        | none => .error .NotFound
        | some subj =>
          if session.status ≠ .active then .error .SessionNotActive
          else if reg.status ≠ .confirmed then .error .InvalidTransition
          else if owns env actingUser reg.studentId then
            match priceOf subj newType with
            | .error e => .error e
            | .ok newPrice =>
              if 0 < swapDelta reg.priceAtRegistration newPrice then
                if (swapDelta reg.priceAtRegistration newPrice).toNat ≤
                    getBalance (switchUpd rid newType newPrice s) reg.studentId then
                  debit reg.studentId
                    (swapDelta reg.priceAtRegistration newPrice).toNat
                    .swap_charge (some rid) actingUser
                    (switchUpd rid newType newPrice s)
                else .error .InsufficientFunds
              else if swapDelta reg.priceAtRegistration newPrice < 0 then
                credit reg.studentId
                  (-(swapDelta reg.priceAtRegistration newPrice)).toNat
                  .swap_refund (some rid) actingUser
                  (switchUpd rid newType newPrice s)
              else .ok (switchUpd rid newType newPrice s)
          else .error .Unauthorized

/-- Modelled from the spec: the total price of the requested checkout
lines, each line a (subjectId, registrationType) pair. -/
def computeTotal (env : Env) : List (Nat × RegType) → Except Err Nat
  | [] => .ok 0
  | (subjId, t) :: rest =>
    match findSubject env subjId with
    | none => .error .NotFound
    | some subj =>
      match priceOf subj t with
      | .error e => .error e
      | .ok p =>
        match computeTotal env rest with
        | .error e => .error e
        | .ok total => .ok (p + total)

/-- Modelled from the spec: creation of the requested checkout lines in
`pending_payment`; each creation re-checks for duplicates, which also
rejects two lines for the same subject. -/
def createMany (env : Env) (sid sess rb : Nat) :
    List (Nat × RegType) → EngineState → Except Err EngineState
  | [], s => .ok s
  | (subjId, t) :: rest, s =>
    match findSubject env subjId with
    | none => .error .NotFound
    | some subj =>
      match priceOf subj t with
      | .error e => .error e
      | .ok p =>
        match mkReg sid sess subjId t p .pending_payment rb s with
        | .error e => .error e
        | .ok s1 => createMany env sid sess rb rest s1

/-- Subject ids of the non-dropped registrations of one student in one
session. -/
def nonDroppedSubjects (s : EngineState) (sid sess : Nat) : List Nat :=
  (s.regs.filter (fun r =>
    decide (r.studentId = sid ∧ r.sessionId = sess ∧ r.status ≠ .dropped))).map
    (fun r => r.subjectId)

/-- Modelled from the spec: the Checkout operation of the Transaction
Coordinator — validate the session is active, the caller owns the
student, and core completeness of the full resulting subject set; then
apply the available escrow balance up to min(balance, total) via debit
and create the registrations in `pending_payment`. The externally payable
remainder is `total - applied`; payment capture is outside the engine. -/
def checkoutOp (env : Env) (sid sessId : Nat) (lines : List (Nat × RegType))
    (actingUser : Nat) (s : EngineState) : Except Err EngineState :=
  match findSession env sessId with
  | none => .error .NotFound
  | some session =>
    if session.status ≠ .active then .error .SessionNotActive
    else if owns env actingUser sid then
      if validateCoreCompleteness env (env.grade sid) session.sessionType
          (nonDroppedSubjects s sid sessId ++ lines.map (fun l => l.1)) then
        match computeTotal env lines with
        | .error e => .error e
        | .ok total =>
          if min (getBalance s sid) total = 0 then
            createMany env sid sessId actingUser lines s
          else
            match debit sid (min (getBalance s sid) total) .payment_applied
                none actingUser s with
            | .error e => .error e
            | .ok s1 => createMany env sid sessId actingUser lines s1
      else .error .CoreIncomplete
    else .error .Unauthorized

/-- Modelled from the spec: the payment-confirmation callback — confirm
each associated registration as one unit. -/
def confirmPaymentOp : List Nat → EngineState → Except Err EngineState
  | [], s => .ok s
  | rid :: rest, s =>
    match confirmReg rid s with
    | .error e => .error e
    | .ok s1 => confirmPaymentOp rest s1

def findWithdrawal (s : EngineState) (wid : Nat) : Option WithdrawalRequest :=
  s.withdrawals.find? (fun w => w.id == wid)

def updWithdrawal (wid : Nat) (f : WithdrawalRequest → WithdrawalRequest)
    (s : EngineState) : EngineState :=
  { s with
    withdrawals := s.withdrawals.map (fun w => if w.id == wid then f w else w) }

/-- Modelled from the spec: `requestWithdrawal` — the requested amount
may exceed the balance (the request records intent); the request is
created `pending` with no released amount. -/
def requestWithdrawalOp (sid amount _requestedBy : Nat) (s : EngineState) :
    Except Err EngineState :=
  if amount = 0 then .error .InvalidAmount
  else
    .ok { s with
          withdrawals := { id := s.nextId, studentId := sid,
                           requestedAmount := amount, releasedAmount := none,
                           status := .pending } :: s.withdrawals,
          nextId := s.nextId + 1 }

/-- Modelled from the spec: `fulfillWithdrawal` — only an admin principal
may transition a request out of `pending`; fulfillment validates that the
released amount is at most the requested amount and at most the current
balance, else fails with `InsufficientFunds`; on success it debits the
released amount with reason `withdrawal` and sets the status to
`fulfilled` when the released amount equals the requested amount, to
`partially_fulfilled` otherwise. -/
def fulfillWithdrawalOp (env : Env) (wid released adminId : Nat)
    (s : EngineState) : Except Err EngineState :=
  match findWithdrawal s wid with
  | none => .error .NotFound
  | some w =>
    if env.isAdmin adminId then
      if w.status ≠ .pending then .error .InvalidTransition
      else if w.requestedAmount < released ∨ getBalance s w.studentId < released then
        .error .InsufficientFunds
      else
        match debit w.studentId released .withdrawal none adminId s with
        | .error e => .error e
        | .ok s1 =>
          .ok (updWithdrawal wid
            (fun w0 => { w0 with
                         releasedAmount := some released,
                         status := if released = w0.requestedAmount then
                           .fulfilled else .partially_fulfilled }) s1)
    else .error .Unauthorized

/-- The operations that reach the state of the engine: the ledger
primitives and the Coordinator operations that invoke them. -/
inductive Op where
  | credit (sid amount : Nat) (reason : Reason) (rel : Option Nat) (initBy : Nat)
  | debit (sid amount : Nat) (reason : Reason) (rel : Option Nat) (initBy : Nat)
  | transfer (fromSid toSid amount initBy : Nat)
  | checkout (sid sessId : Nat) (lines : List (Nat × RegType)) (actingUser : Nat)
  | confirmPayment (regIds : List Nat)
  | drop (rid actingUser : Nat)
  | swap (rid newSubjId : Nat) (newType : RegType) (actingUser : Nat)
  | switchType (rid : Nat) (newType : RegType) (actingUser : Nat)
  | requestWithdrawal (sid amount requestedBy : Nat)
  | fulfillWithdrawal (wid released adminId : Nat)

def applyOpE (env : Env) : Op → EngineState → Except Err EngineState
  | .credit sid a r rel u, s => credit sid a r rel u s
  | .debit sid a r rel u, s => debit sid a r rel u s
  | .transfer f t a u, s => transfer f t a u s
  | .checkout sid sess lines u, s => checkoutOp env sid sess lines u s
  | .confirmPayment rids, s => confirmPaymentOp rids s
  | .drop rid u, s => dropOp env rid u s
  | .swap rid nsid nt u, s => swapOp env rid nsid nt u s
  | .switchType rid nt u, s => switchTypeOp env rid nt u s
  | .requestWithdrawal sid a rb, s => requestWithdrawalOp sid a rb s
  | .fulfillWithdrawal wid rel adm, s => fulfillWithdrawalOp env wid rel adm s

/-- A failed operation rolls the whole unit back: the state is kept
unchanged. -/
def applyOp (env : Env) (op : Op) (s : EngineState) : EngineState :=
  match applyOpE env op s with
  | .error _ => s
  | .ok s1 => s1

def applyOps (env : Env) : List Op → EngineState → EngineState
  | [], s => s
  | op :: rest, s => applyOps env rest (applyOp env op s)

theorem dropReg_ok_ledger (rid : Nat) (s s' : EngineState)
    (hok : dropReg rid s = .ok s') :
    s'.balances = s.balances ∧ s'.txns = s.txns ∧
    s'.withdrawals = s.withdrawals ∧ s'.nextId = s.nextId := by
  unfold dropReg at hok
  split at hok
  · simp at hok
  · split at hok
    · simp only [Except.ok.injEq] at hok
      subst hok
      simp [updReg]
    · simp at hok

theorem confirmReg_ok_ledger (rid : Nat) (s s' : EngineState)
    (hok : confirmReg rid s = .ok s') :
    s'.balances = s.balances ∧ s'.txns = s.txns ∧
    s'.withdrawals = s.withdrawals ∧ s'.nextId = s.nextId := by
  unfold confirmReg at hok
  split at hok
  · simp at hok
  · split at hok
    · simp only [Except.ok.injEq] at hok
      subst hok
      simp [updReg]
    · simp at hok

theorem createMany_ok_ledger (env : Env) (sid sess rb : Nat)
    (lines : List (Nat × RegType)) :
    ∀ s s', createMany env sid sess rb lines s = .ok s' →
      s'.balances = s.balances ∧ s'.txns = s.txns ∧
      s'.withdrawals = s.withdrawals := by
  induction lines with
  | nil =>
    intro s s' hok
    simp only [createMany, Except.ok.injEq] at hok
    subst hok
    exact ⟨rfl, rfl, rfl⟩
  | cons line rest ih =>
    intro s s' hok
    obtain ⟨subjId, t⟩ := line
    simp only [createMany] at hok
    split at hok
    · simp at hok
    · split at hok
      · simp at hok
      · split at hok
        · simp at hok
        next s1 hmk =>
          obtain ⟨hb, ht, hw, -, -⟩ := mkReg_ok_effects _ _ _ _ _ _ _ _ _ hmk
          obtain ⟨hb2, ht2, hw2⟩ := ih s1 s' hok
          exact ⟨hb2.trans hb, ht2.trans ht, hw2.trans hw⟩

theorem confirmPaymentOp_ok_ledger (rids : List Nat) :
    ∀ s s', confirmPaymentOp rids s = .ok s' →
      s'.balances = s.balances ∧ s'.txns = s.txns ∧
      s'.withdrawals = s.withdrawals := by
  induction rids with
  | nil =>
    intro s s' hok
    simp only [confirmPaymentOp, Except.ok.injEq] at hok
    subst hok
    exact ⟨rfl, rfl, rfl⟩
  | cons rid rest ih =>
    intro s s' hok
    simp only [confirmPaymentOp] at hok
    split at hok
    · simp at hok
    next s1 hc =>
      obtain ⟨hb, ht, hw, -⟩ := confirmReg_ok_ledger _ _ _ hc
      obtain ⟨hb2, ht2, hw2⟩ := ih s1 s' hok
      exact ⟨hb2.trans hb, ht2.trans ht, hw2.trans hw⟩

theorem dropOp_ok_conserves (env : Env) (rid u : Nat) (s s' : EngineState)
    (hok : dropOp env rid u s = .ok s') (h : conserves s) : conserves s' := by
  unfold dropOp at hok
  split at hok
  · simp at hok
  · split at hok
    · simp at hok
    · split at hok
      · simp at hok
      · split at hok
        · simp at hok
        · split at hok
          · simp at hok
          · split at hok
            · split at hok
              · simp at hok
              next s1 hdrop =>
                obtain ⟨hb, ht, -, -⟩ := dropReg_ok_ledger _ _ _ hdrop
                exact credit_ok_conserves _ _ _ _ _ _ _ hok
                  (conserves_of_ledger_eq _ _ hb ht h)
            · simp at hok

theorem swapOp_ok_conserves (env : Env) (rid nsid : Nat) (nt : RegType)
    (u : Nat) (s s' : EngineState) (hok : swapOp env rid nsid nt u s = .ok s')
    (h : conserves s) : conserves s' := by
  unfold swapOp at hok
  split at hok
  · simp at hok
  · split at hok
    · simp at hok
    · split at hok
      · simp at hok
      · split at hok
        · simp at hok
        · split at hok
          · simp at hok
          · split at hok
            · simp at hok
            · split at hok
              · simp at hok
              · split at hok
                · split at hok
                  · simp at hok
                  · split at hok
                    · simp at hok
                    next s1 hdrop =>
                      obtain ⟨hb1, ht1, -, -⟩ := dropReg_ok_ledger _ _ _ hdrop
                      have h1 : conserves s1 := conserves_of_ledger_eq _ _ hb1 ht1 h
                      split at hok
                      · split at hok
                        · split at hok
                          · simp at hok
                          next s2 hdeb =>
                            have h2 : conserves s2 :=
                              debit_ok_conserves _ _ _ _ _ _ _ hdeb h1
                            obtain ⟨hb3, ht3, -, -, -⟩ :=
                              mkReg_ok_effects _ _ _ _ _ _ _ _ _ hok
                            exact conserves_of_ledger_eq _ _ hb3 ht3 h2
                        · simp at hok
                      · split at hok
                        · split at hok
                          · simp at hok
                          next s2 hmk =>
                            obtain ⟨hb2, ht2, -, -, -⟩ :=
                              mkReg_ok_effects _ _ _ _ _ _ _ _ _ hmk
                            have h2 : conserves s2 :=
                              conserves_of_ledger_eq _ _ hb2 ht2 h1
                            exact credit_ok_conserves _ _ _ _ _ _ _ hok h2
                        · obtain ⟨hb2, ht2, -, -, -⟩ :=
                            mkReg_ok_effects _ _ _ _ _ _ _ _ _ hok
                          exact conserves_of_ledger_eq _ _ hb2 ht2 h1
                · simp at hok

theorem switchTypeOp_ok_conserves (env : Env) (rid : Nat) (nt : RegType)
    (u : Nat) (s s' : EngineState)
    (hok : switchTypeOp env rid nt u s = .ok s') (h : conserves s) :
    conserves s' := by
  have hupd : ∀ ntp np, conserves (switchUpd rid ntp np s) := by
    intro ntp np
    obtain ⟨hb, ht, -, -⟩ := updReg_effects rid
      (fun r0 => { r0 with registrationType := ntp, priceAtRegistration := np }) s
    exact conserves_of_ledger_eq _ _ hb ht h
  unfold switchTypeOp at hok
  split at hok
  · simp at hok
  · split at hok
    · simp at hok
    · split at hok
      · simp at hok
      · split at hok
        · simp at hok
        · split at hok
          · simp at hok
          · split at hok
            · simp at hok
            · split at hok
              · split at hok
                · simp at hok
                · split at hok
                  · split at hok
                    · exact debit_ok_conserves _ _ _ _ _ _ _ hok (hupd _ _)
                    · simp at hok
                  · split at hok
                    · exact credit_ok_conserves _ _ _ _ _ _ _ hok (hupd _ _)
                    · simp only [Except.ok.injEq] at hok
                      subst hok
                      exact hupd _ _
              · simp at hok

theorem checkoutOp_ok_conserves (env : Env) (sid sessId : Nat)
    (lines : List (Nat × RegType)) (u : Nat) (s s' : EngineState)
    (hok : checkoutOp env sid sessId lines u s = .ok s') (h : conserves s) :
    conserves s' := by
  unfold checkoutOp at hok
  split at hok
  · simp at hok
  · split at hok
    · simp at hok
    · split at hok
      · split at hok
        · split at hok
          · simp at hok
          · split at hok
            · obtain ⟨hb, ht, -⟩ := createMany_ok_ledger _ _ _ _ _ _ _ hok
              exact conserves_of_ledger_eq _ _ hb ht h
            · split at hok
              · simp at hok
              next s1 hdeb =>
                have h1 : conserves s1 := debit_ok_conserves _ _ _ _ _ _ _ hdeb h
                obtain ⟨hb, ht, -⟩ := createMany_ok_ledger _ _ _ _ _ _ _ hok
                exact conserves_of_ledger_eq _ _ hb ht h1
        · simp at hok
      · simp at hok

theorem requestWithdrawalOp_ok_conserves (sid amount rb : Nat)
    (s s' : EngineState) (hok : requestWithdrawalOp sid amount rb s = .ok s')
    (h : conserves s) : conserves s' := by
  unfold requestWithdrawalOp at hok
  split at hok
  · simp at hok
  · simp only [Except.ok.injEq] at hok
    subst hok
    exact conserves_of_ledger_eq _ _ rfl rfl h

theorem fulfillWithdrawalOp_ok_conserves (env : Env) (wid released adminId : Nat)
    (s s' : EngineState)
    (hok : fulfillWithdrawalOp env wid released adminId s = .ok s')
    (h : conserves s) : conserves s' := by
  unfold fulfillWithdrawalOp at hok
  split at hok
  · simp at hok
  · split at hok
    · split at hok
      · simp at hok
      · split at hok
        · simp at hok
        · split at hok
          · simp at hok
          next s1 hdeb =>
            have h1 : conserves s1 := debit_ok_conserves _ _ _ _ _ _ _ hdeb h
            simp only [Except.ok.injEq] at hok
            subst hok
            exact conserves_of_ledger_eq _ _ rfl rfl h1
    · simp at hok

theorem applyOp_conserves (env : Env) (op : Op) (s : EngineState)
    (h : conserves s) : conserves (applyOp env op s) := by
  have hsplit : applyOp env op s = s ∨
      ∃ s1, applyOpE env op s = Except.ok s1 ∧ applyOp env op s = s1 := by
    unfold applyOp
    cases hE : applyOpE env op s
    · exact Or.inl rfl
    · exact Or.inr ⟨_, rfl, rfl⟩
  rcases hsplit with heq | ⟨s1, hE, heq⟩
  · rw [heq]; exact h
  · rw [heq]
    cases op with
    | credit sid a r rel u =>
      exact credit_ok_conserves _ _ _ _ _ _ _ hE h
    | debit sid a r rel u =>
      exact debit_ok_conserves _ _ _ _ _ _ _ hE h
    | transfer f t a u =>
      exact transfer_ok_conserves _ _ _ _ _ _ hE h
    | checkout sid sess lines u =>
      exact checkoutOp_ok_conserves _ _ _ _ _ _ _ hE h
    | confirmPayment rids =>
      obtain ⟨hb, ht, -⟩ := confirmPaymentOp_ok_ledger _ _ _ hE
      exact conserves_of_ledger_eq _ _ hb ht h
    | drop rid u =>
      exact dropOp_ok_conserves _ _ _ _ _ hE h
    | swap rid nsid nt u =>
      exact swapOp_ok_conserves _ _ _ _ _ _ _ hE h
    | switchType rid nt u =>
      exact switchTypeOp_ok_conserves _ _ _ _ _ _ hE h
    | requestWithdrawal sid a rb =>
      simp only [applyOpE] at hE
      exact requestWithdrawalOp_ok_conserves _ _ _ _ _ hE h
    | fulfillWithdrawal wid rel adm =>
      exact fulfillWithdrawalOp_ok_conserves _ _ _ _ _ _ hE h

theorem applyOps_conserves (env : Env) (ops : List Op) :
    ∀ s, conserves s → conserves (applyOps env ops s) := by
  induction ops with
  | nil => intro s h; exact h
  | cons op rest ih =>
    intro s h
    exact ih _ (applyOp_conserves env op s h)

/-- C1: for every student and every state reachable by any sequence of
ledger operations (credit, debit, transfer, and the Coordinator
operations that invoke them), the escrow balance equals the sum of the
amounts of the credit transactions of that student minus the sum of the
amounts of its debit transactions. -/
theorem c1_balance_conservation (env : Env) (ops : List Op) (sid : Nat) :
    (getBalance (applyOps env ops initState) sid : Int) =
      (sumCredits sid (applyOps env ops initState).txns : Int) -
        (sumDebits sid (applyOps env ops initState).txns : Int) :=
  applyOps_conserves env ops initState conserves_init sid

/-- C2: every Coordinator or ledger operation is all-or-nothing — if it
fails, the resulting state equals the starting state, so no partial
effect (a half-done swap, a stray ledger entry) is ever observable. -/
theorem c2_failure_atomicity (env : Env) (op : Op) (s : EngineState)
    (e : Err) (h : applyOpE env op s = .error e) : applyOp env op s = s := by
  unfold applyOp
  rw [h]

/-- A concrete environment for witnesses: four subjects, one active June
session, every student in grade 11, no parent links, user 9 an admin. -/
def envEx : Env :=
  { subjects := [ { id := 1, priceInSchool := 500, priceExternal := some 600,
                    isCore := false },
                  { id := 2, priceInSchool := 800, priceExternal := none,
                    isCore := false },
                  { id := 3, priceInSchool := 300, priceExternal := some 350,
                    isCore := false },
                  { id := 4, priceInSchool := 500, priceExternal := none,
                    isCore := false } ],
    sessions := [ { id := 1, sessionType := .june, status := .active } ],
    grade := fun _ => 11,
    parentLink := fun _ _ => false,
    isAdmin := fun u => u == 9 }

theorem c2_failure_atomicity_witness :
    applyOp envEx (Op.debit 1 5 Reason.withdrawal none 9) initState =
      initState :=
  c2_failure_atomicity envEx (Op.debit 1 5 Reason.withdrawal none 9) initState
    Err.InsufficientFunds rfl

/-- At most one non-dropped registration per (student, session, subject)
triple. -/
def regInv (s : EngineState) : Prop :=
  ∀ sid sess subj, countNonDropped sid sess subj s.regs ≤ 1

theorem regInv_init : regInv initState := by
  intro sid sess subj
  simp [countNonDropped, initState]

theorem regInv_of_regs_eq (s s' : EngineState) (hr : s'.regs = s.regs)
    (h : regInv s) : regInv s' := by
  intro sid sess subj
  rw [hr]
  exact h sid sess subj

theorem countP_map_le {α : Type} (p : α → Bool) (f : α → α) (l : List α)
    (hf : ∀ a, p (f a) = true → p a = true) :
    (l.map f).countP p ≤ l.countP p := by
  induction l with
  | nil => simp
  | cons a t ih =>
    simp only [List.map_cons, List.countP_cons]
    by_cases hpa : p (f a) = true
    · rw [if_pos hpa, if_pos (hf a hpa)]
      omega
    · rw [if_neg hpa]
      by_cases hqa : p a = true
      · rw [if_pos hqa]; omega
      · rw [if_neg hqa]; omega

theorem countP_eq_zero_of_any_false {α : Type} (p : α → Bool) (l : List α)
    (h : l.any p = false) : l.countP p = 0 := by
  induction l with
  | nil => simp
  | cons a t ih =>
    simp only [List.any_cons, Bool.or_eq_false_iff] at h
    simp [List.countP_cons, h.1, ih h.2]

theorem countNonDropped_cons (sid sess subj : Nat) (r : Registration)
    (regs : List Registration) :
    countNonDropped sid sess subj (r :: regs) =
      countNonDropped sid sess subj regs +
        (if r.studentId = sid ∧ r.sessionId = sess ∧ r.subjectId = subj ∧
            r.status ≠ RegStatus.dropped then 1 else 0) := by
  simp [countNonDropped, List.countP_cons]

theorem countNonDropped_map_le (sid sess subj : Nat)
    (f : Registration → Registration) (regs : List Registration)
    (hf : ∀ r, (f r).studentId = r.studentId ∧ (f r).sessionId = r.sessionId ∧
      (f r).subjectId = r.subjectId ∧
      ((f r).status ≠ RegStatus.dropped → r.status ≠ RegStatus.dropped)) :
    countNonDropped sid sess subj (regs.map f) ≤
      countNonDropped sid sess subj regs := by
  unfold countNonDropped
  apply countP_map_le
  intro a hpa
  obtain ⟨h1, h2, h3, h4⟩ := hf a
  simp only [decide_eq_true_eq] at hpa ⊢
  obtain ⟨a1, a2, a3, a4⟩ := hpa
  exact ⟨h1.symm.trans a1, h2.symm.trans a2, h3.symm.trans a3, h4 a4⟩

theorem mkReg_regInv (sid sess subj : Nat) (rtype : RegType) (price : Nat)
    (st : RegStatus) (rb : Nat) (s s' : EngineState)
    (hok : mkReg sid sess subj rtype price st rb s = .ok s')
    (h : regInv s) : regInv s' := by
  obtain ⟨-, -, -, hr, hdup⟩ := mkReg_ok_effects _ _ _ _ _ _ _ _ _ hok
  intro sid2 sess2 subj2
  rw [hr, countNonDropped_cons]
  by_cases htr : sid = sid2 ∧ sess = sess2 ∧ subj = subj2
  · obtain ⟨h1, h2, h3⟩ := htr
    subst h1; subst h2; subst h3
    have hz : countNonDropped sid sess subj s.regs = 0 := by
      unfold countNonDropped
      apply countP_eq_zero_of_any_false
      unfold hasNonDropped at hdup
      exact hdup
    rw [hz]
    split <;> omega
  · split
    next hc => exact absurd ⟨hc.1, hc.2.1, hc.2.2.1⟩ htr
    next hc =>
      have := h sid2 sess2 subj2
      omega

theorem dropReg_ok_regs (rid : Nat) (s s' : EngineState)
    (hok : dropReg rid s = .ok s') :
    s'.regs = s.regs.map (fun r =>
      if r.id == rid then { r with status := RegStatus.dropped } else r) := by
  unfold dropReg at hok
  split at hok
  · simp at hok
  · split at hok
    · simp only [Except.ok.injEq] at hok
      subst hok
      simp [updReg]
    · simp at hok

theorem confirmReg_ok_regs (rid : Nat) (s s' : EngineState)
    (hok : confirmReg rid s = .ok s') :
    s'.regs = s.regs.map (fun r =>
      if r.id == rid then
        (if r.status = RegStatus.pending_payment then
          { r with status := RegStatus.confirmed } else r)
      else r) := by
  unfold confirmReg at hok
  split at hok
  · simp at hok
  · split at hok
    · simp only [Except.ok.injEq] at hok
      subst hok
      simp [updReg]
    · simp at hok

theorem dropReg_ok_regInv (rid : Nat) (s s' : EngineState)
    (hok : dropReg rid s = .ok s') (h : regInv s) : regInv s' := by
  intro sid sess subj
  rw [dropReg_ok_regs rid s s' hok]
  calc countNonDropped sid sess subj (s.regs.map _) ≤
      countNonDropped sid sess subj s.regs := by
        apply countNonDropped_map_le
        intro r
        by_cases hid : (r.id == rid) = true
        · simp [hid]
        · simp [hid]
    _ ≤ 1 := h sid sess subj

theorem confirmReg_ok_regInv (rid : Nat) (s s' : EngineState)
    (hok : confirmReg rid s = .ok s') (h : regInv s) : regInv s' := by
  intro sid sess subj
  rw [confirmReg_ok_regs rid s s' hok]
  calc countNonDropped sid sess subj (s.regs.map _) ≤
      countNonDropped sid sess subj s.regs := by
        apply countNonDropped_map_le
        intro r
        by_cases hid : (r.id == rid) = true
        · by_cases hst : r.status = RegStatus.pending_payment
          · simp [hid, hst]
          · simp [hid, hst]
        · simp [hid]
    _ ≤ 1 := h sid sess subj

theorem switchUpd_regInv (rid : Nat) (nt : RegType) (np : Nat)
    (s : EngineState) (h : regInv s) : regInv (switchUpd rid nt np s) := by
  intro sid sess subj
  simp only [switchUpd, updReg]
  calc countNonDropped sid sess subj (s.regs.map _) ≤
      countNonDropped sid sess subj s.regs := by
        apply countNonDropped_map_le
        intro r
        by_cases hid : (r.id == rid) = true
        · simp [hid]
        · simp [hid]
    _ ≤ 1 := h sid sess subj

theorem createMany_ok_regInv (env : Env) (sid sess rb : Nat)
    (lines : List (Nat × RegType)) :
    ∀ s s', createMany env sid sess rb lines s = .ok s' →
      regInv s → regInv s' := by
  induction lines with
  | nil =>
    intro s s' hok h
    simp only [createMany, Except.ok.injEq] at hok
    subst hok
    exact h
  | cons line rest ih =>
    intro s s' hok h
    obtain ⟨subjId, t⟩ := line
    simp only [createMany] at hok
    split at hok
    · simp at hok
    · split at hok
      · simp at hok
      · split at hok
        · simp at hok
        next s1 hmk =>
          exact ih s1 s' hok (mkReg_regInv _ _ _ _ _ _ _ _ _ hmk h)

theorem confirmPaymentOp_ok_regInv (rids : List Nat) :
    ∀ s s', confirmPaymentOp rids s = .ok s' → regInv s → regInv s' := by
  induction rids with
  | nil =>
    intro s s' hok h
    simp only [confirmPaymentOp, Except.ok.injEq] at hok
    subst hok
    exact h
  | cons rid rest ih =>
    intro s s' hok h
    simp only [confirmPaymentOp] at hok
    split at hok
    · simp at hok
    next s1 hc =>
      exact ih s1 s' hok (confirmReg_ok_regInv _ _ _ hc h)

theorem dropOp_ok_regInv (env : Env) (rid u : Nat) (s s' : EngineState)
    (hok : dropOp env rid u s = .ok s') (h : regInv s) : regInv s' := by
  unfold dropOp at hok
  split at hok
  · simp at hok
  · split at hok
    · simp at hok
    · split at hok
      · simp at hok
      · split at hok
        · simp at hok
        · split at hok
          · simp at hok
          · split at hok
            · split at hok
              · simp at hok
              next s1 hdrop =>
                obtain ⟨-, -, hr, -, -, -⟩ := credit_ok_effects _ _ _ _ _ _ _ hok
                exact regInv_of_regs_eq _ _ hr (dropReg_ok_regInv _ _ _ hdrop h)
            · simp at hok

theorem swapOp_ok_regInv (env : Env) (rid nsid : Nat) (nt : RegType)
    (u : Nat) (s s' : EngineState) (hok : swapOp env rid nsid nt u s = .ok s')
    (h : regInv s) : regInv s' := by
  unfold swapOp at hok
  split at hok
  · simp at hok
  · split at hok
    · simp at hok
    · split at hok
      · simp at hok
      · split at hok
        · simp at hok
        · split at hok
          · simp at hok
          · split at hok
            · simp at hok
            · split at hok
              · simp at hok
              · split at hok
                · split at hok
                  · simp at hok
                  · split at hok
                    · simp at hok
                    next s1 hdrop =>
                      have h1 : regInv s1 := dropReg_ok_regInv _ _ _ hdrop h
                      split at hok
                      · split at hok
                        · split at hok
                          · simp at hok
                          next s2 hdeb =>
                            obtain ⟨-, -, hr, -, -, -, -⟩ :=
                              debit_ok_effects _ _ _ _ _ _ _ hdeb
                            exact mkReg_regInv _ _ _ _ _ _ _ _ _ hok
                              (regInv_of_regs_eq _ _ hr h1)
                        · simp at hok
                      · split at hok
                        · split at hok
                          · simp at hok
                          next s2 hmk =>
                            have h2 : regInv s2 :=
                              mkReg_regInv _ _ _ _ _ _ _ _ _ hmk h1
                            obtain ⟨-, -, hr, -, -, -⟩ :=
                              credit_ok_effects _ _ _ _ _ _ _ hok
                            exact regInv_of_regs_eq _ _ hr h2
                        · exact mkReg_regInv _ _ _ _ _ _ _ _ _ hok h1
                · simp at hok

theorem switchTypeOp_ok_regInv (env : Env) (rid : Nat) (nt : RegType)
    (u : Nat) (s s' : EngineState)
    (hok : switchTypeOp env rid nt u s = .ok s') (h : regInv s) :
    regInv s' := by
  unfold switchTypeOp at hok
  split at hok
  · simp at hok
  · split at hok
    · simp at hok
    · split at hok
      · simp at hok
      · split at hok
        · simp at hok
        · split at hok
          · simp at hok
          · split at hok
            · simp at hok
            · split at hok
              · split at hok
                · simp at hok
                · split at hok
                  · split at hok
                    · obtain ⟨-, -, hr, -, -, -, -⟩ :=
                        debit_ok_effects _ _ _ _ _ _ _ hok
                      exact regInv_of_regs_eq _ _ hr
                        (switchUpd_regInv _ _ _ _ h)
                    · simp at hok
                  · split at hok
                    · obtain ⟨-, -, hr, -, -, -⟩ :=
                        credit_ok_effects _ _ _ _ _ _ _ hok
                      exact regInv_of_regs_eq _ _ hr
                        (switchUpd_regInv _ _ _ _ h)
                    · simp only [Except.ok.injEq] at hok
                      subst hok
                      exact switchUpd_regInv _ _ _ _ h
              · simp at hok

theorem checkoutOp_ok_regInv (env : Env) (sid sessId : Nat)
    (lines : List (Nat × RegType)) (u : Nat) (s s' : EngineState)
    (hok : checkoutOp env sid sessId lines u s = .ok s') (h : regInv s) :
    regInv s' := by
  unfold checkoutOp at hok
  split at hok
  · simp at hok
  · split at hok
    · simp at hok
    · split at hok
      · split at hok
        · split at hok
          · simp at hok
          · split at hok
            · exact createMany_ok_regInv _ _ _ _ _ _ _ hok h
            · split at hok
              · simp at hok
              next s1 hdeb =>
                obtain ⟨-, -, hr, -, -, -, -⟩ :=
                  debit_ok_effects _ _ _ _ _ _ _ hdeb
                exact createMany_ok_regInv _ _ _ _ _ _ _ hok
                  (regInv_of_regs_eq _ _ hr h)
        · simp at hok
      · simp at hok

theorem fulfillWithdrawalOp_ok_regInv (env : Env) (wid released adminId : Nat)
    (s s' : EngineState)
    (hok : fulfillWithdrawalOp env wid released adminId s = .ok s')
    (h : regInv s) : regInv s' := by
  unfold fulfillWithdrawalOp at hok
  split at hok
  · simp at hok
  · split at hok
    · split at hok
      · simp at hok
      · split at hok
        · simp at hok
        · split at hok
          · simp at hok
          next s1 hdeb =>
            obtain ⟨-, -, hr, -, -, -, -⟩ := debit_ok_effects _ _ _ _ _ _ _ hdeb
            simp only [Except.ok.injEq] at hok
            subst hok
            exact regInv_of_regs_eq _ _ (by simp [updWithdrawal, hr]) h
    · simp at hok

theorem transfer_ok_regs (fromSid toSid amount initBy : Nat)
    (s s' : EngineState) (hok : transfer fromSid toSid amount initBy s = .ok s') :
    s'.regs = s.regs := by
  unfold transfer at hok
  split at hok
  · simp at hok
  next s1 hdeb =>
    obtain ⟨-, -, hr1, -, -, -, -⟩ := debit_ok_effects _ _ _ _ _ _ _ hdeb
    obtain ⟨-, -, hr2, -, -, -⟩ := credit_ok_effects _ _ _ _ _ _ _ hok
    exact hr2.trans hr1

theorem applyOp_regInv (env : Env) (op : Op) (s : EngineState)
    (h : regInv s) : regInv (applyOp env op s) := by
  have hsplit : applyOp env op s = s ∨
      ∃ s1, applyOpE env op s = Except.ok s1 ∧ applyOp env op s = s1 := by
    unfold applyOp
    cases hE : applyOpE env op s
    · exact Or.inl rfl
    · exact Or.inr ⟨_, rfl, rfl⟩
  rcases hsplit with heq | ⟨s1, hE, heq⟩
  · rw [heq]; exact h
  · rw [heq]
    cases op with
    | credit sid a r rel u =>
      obtain ⟨-, -, hr, -, -, -⟩ := credit_ok_effects _ _ _ _ _ _ _ hE
      exact regInv_of_regs_eq _ _ hr h
    | debit sid a r rel u =>
      obtain ⟨-, -, hr, -, -, -, -⟩ := debit_ok_effects _ _ _ _ _ _ _ hE
      exact regInv_of_regs_eq _ _ hr h
    | transfer f t a u =>
      exact regInv_of_regs_eq _ _ (transfer_ok_regs _ _ _ _ _ _ hE) h
    | checkout sid sess lines u =>
      exact checkoutOp_ok_regInv _ _ _ _ _ _ _ hE h
    | confirmPayment rids =>
      exact confirmPaymentOp_ok_regInv _ _ _ hE h
    | drop rid u =>
      exact dropOp_ok_regInv _ _ _ _ _ hE h
    | swap rid nsid nt u =>
      exact swapOp_ok_regInv _ _ _ _ _ _ _ hE h
    | switchType rid nt u =>
      exact switchTypeOp_ok_regInv _ _ _ _ _ _ hE h
    | requestWithdrawal sid a rb =>
      simp only [applyOpE] at hE
      unfold requestWithdrawalOp at hE
      split at hE
      · simp at hE
      · simp only [Except.ok.injEq] at hE
        subst hE
        exact regInv_of_regs_eq _ _ rfl h
    | fulfillWithdrawal wid rel adm =>
      exact fulfillWithdrawalOp_ok_regInv _ _ _ _ _ _ hE h

theorem applyOps_regInv (env : Env) (ops : List Op) :
    ∀ s, regInv s → regInv (applyOps env ops s) := by
  induction ops with
  | nil => intro s h; exact h
  | cons op rest ih =>
    intro s h
    exact ih _ (applyOp_regInv env op s h)

/-- C3: at most one non-dropped registration per (studentId, sessionId,
subjectId) triple in every reachable state, and the create operation
enforces this by failing with `DuplicateRegistration` whenever a
non-dropped registration already exists for the triple. -/
theorem c3_no_double_registration :
    (∀ sid sess subj rtype price st rb s,
      hasNonDropped s sid sess subj = true →
        mkReg sid sess subj rtype price st rb s =
          .error .DuplicateRegistration) ∧
    (∀ env ops sid sess subj,
      countNonDropped sid sess subj (applyOps env ops initState).regs ≤ 1) := by
  constructor
  · intro sid sess subj rtype price st rb s hdup
    unfold mkReg
    rw [if_pos hdup]
  · intro env ops sid sess subj
    exact applyOps_regInv env ops initState regInv_init sid sess subj

/-- A concrete state with one confirmed registration, used to exercise
the duplicate check of C3. -/
def stDup : EngineState :=
  { initState with
    regs := [ { id := 10, studentId := 1, sessionId := 2, subjectId := 3,
                registrationType := .in_school, priceAtRegistration := 500,
                status := .confirmed, registeredBy := 1 } ],
    nextId := 11 }

theorem c3_no_double_registration_witness :
    mkReg 1 2 3 RegType.in_school 500 RegStatus.pending_payment 1 stDup =
      .error .DuplicateRegistration :=
  c3_no_double_registration.1 1 2 3 RegType.in_school 500
    RegStatus.pending_payment 1 stDup (by decide)

/-- C4: for every student and every positive amount, debit fails with
`InsufficientFunds` exactly when the amount exceeds the current balance;
when it succeeds it appends exactly one debit transaction of that amount
and decreases the balance by exactly that amount. -/
theorem c4_debit_contract (sid amount : Nat) (r : Reason) (rel : Option Nat)
    (u : Nat) (s : EngineState) (hpos : 0 < amount) :
    (debit sid amount r rel u s = .error .InsufficientFunds ↔
      getBalance s sid < amount) ∧
    (∀ s', debit sid amount r rel u s = .ok s' →
      s'.txns = { ttype := .debit, amount := amount, reason := r,
                  studentId := sid, relatedRegistrationId := rel,
                  initiatedBy := u } :: s.txns ∧
      getBalance s' sid + amount = getBalance s sid) := by
  have hne : ¬(amount = 0) := by omega
  constructor
  · constructor
    · intro herr
      unfold debit at herr
      rw [if_neg hne] at herr
      by_cases hlt : getBalance s sid < amount
      · exact hlt
      · rw [if_neg hlt] at herr
        simp at herr
    · intro hlt
      unfold debit
      rw [if_neg hne, if_pos hlt]
  · intro s' hok
    obtain ⟨hb, ht, -, -, -, hle, -⟩ := debit_ok_effects _ _ _ _ _ _ _ hok
    refine ⟨ht, ?_⟩
    simp [getBalance, hb]
    omega

/-- A concrete state with a single escrow balance of 500 for student 7. -/
def stBal : EngineState := setBalance initState 7 500

theorem c4_debit_contract_witness :
    debit 7 600 Reason.withdrawal none 9 stBal = .error .InsufficientFunds ↔
      getBalance stBal 7 < 600 :=
  (c4_debit_contract 7 600 Reason.withdrawal none 9 stBal (by decide)).1

theorem findW_map_upd (wid : Nat) (f : WithdrawalRequest → WithdrawalRequest)
    (hf : ∀ w, (f w).id = w.id) (l : List WithdrawalRequest) :
    (l.map (fun w => if w.id == wid then f w else w)).find?
        (fun w => w.id == wid) =
      (l.find? (fun w => w.id == wid)).map f := by
  have hpg : ((fun w => w.id == wid) ∘
      (fun w : WithdrawalRequest => if w.id == wid then f w else w)) =
      (fun w : WithdrawalRequest => w.id == wid) := by
    funext w
    by_cases hid : (w.id == wid) = true
    · simp only [Function.comp, if_pos hid]
      rw [hf w]
    · simp only [Function.comp, if_neg hid]
  rw [List.find?_map, hpg]
  cases hfind : l.find? (fun w => w.id == wid) with
  | none => rfl
  | some a =>
    have ha := List.find?_some hfind
    simp only [Option.map]
    rw [if_pos ha]

theorem findWithdrawal_fulfill_upd (wid released : Nat) (s : EngineState) :
    findWithdrawal (updWithdrawal wid
      (fun w0 => { w0 with
        releasedAmount := some released,
        status := if released = w0.requestedAmount then
          WithdrawalStatus.fulfilled else WithdrawalStatus.partially_fulfilled }) s)
      wid =
      (findWithdrawal s wid).map (fun w0 => { w0 with
        releasedAmount := some released,
        status := if released = w0.requestedAmount then
          WithdrawalStatus.fulfilled else
            WithdrawalStatus.partially_fulfilled }) := by
  unfold findWithdrawal updWithdrawal
  exact findW_map_upd wid
    (fun w0 => { w0 with
      releasedAmount := some released,
      status := if released = w0.requestedAmount then
        WithdrawalStatus.fulfilled else WithdrawalStatus.partially_fulfilled })
    (fun w0 => rfl) s.withdrawals

/-- C5: fulfillWithdrawal succeeds only when the released amount is at
most the requested amount and at most the current balance, failing with
`InsufficientFunds` otherwise; on success it debits the released amount
with reason `withdrawal` and sets the request status to `fulfilled` when
the released amount equals the requested amount, to `partially_fulfilled`
otherwise. -/
theorem c5_fulfill_withdrawal (env : Env) (wid released adminId : Nat)
    (s : EngineState) (w : WithdrawalRequest)
    (hw : findWithdrawal s wid = some w)
    (hpend : w.status = .pending)
    (hadm : env.isAdmin adminId = true) :
    ((w.requestedAmount < released ∨ getBalance s w.studentId < released) →
      fulfillWithdrawalOp env wid released adminId s =
        .error .InsufficientFunds) ∧
    (∀ s', fulfillWithdrawalOp env wid released adminId s = .ok s' →
      released ≤ w.requestedAmount ∧ released ≤ getBalance s w.studentId ∧
      s'.txns = { ttype := .debit, amount := released,
                  reason := .withdrawal, studentId := w.studentId,
                  relatedRegistrationId := none,
                  initiatedBy := adminId } :: s.txns ∧
      findWithdrawal s' wid = some { w with
        releasedAmount := some released,
        status := if released = w.requestedAmount then .fulfilled
                  else .partially_fulfilled }) := by
  have hnp : ¬(w.status ≠ WithdrawalStatus.pending) := by simp [hpend]
  constructor
  · intro hviol
    simp only [fulfillWithdrawalOp, hw]
    rw [if_pos hadm, if_neg hnp, if_pos hviol]
  · intro s' hok
    simp only [fulfillWithdrawalOp, hw] at hok
    rw [if_pos hadm, if_neg hnp] at hok
    split at hok
    · simp at hok
    next hnv =>
      push_neg at hnv
      split at hok
      · simp at hok
      next s1 hdeb =>
        obtain ⟨-, ht, -, hwd, -, -, -⟩ := debit_ok_effects _ _ _ _ _ _ _ hdeb
        simp only [Except.ok.injEq] at hok
        subst hok
        refine ⟨hnv.1, hnv.2, ?_, ?_⟩
        · simp [updWithdrawal, ht]
        · have hfind : findWithdrawal s1 wid = some w := by
            unfold findWithdrawal
            rw [hwd]
            exact hw
          rw [findWithdrawal_fulfill_upd, hfind]
          rfl

/-- A concrete state with a pending withdrawal request of 800 for student
1, whose balance is 500. -/
def stW : EngineState :=
  { initState with
    balances := fun x => if x = 1 then 500 else 0,
    withdrawals := [ { id := 0, studentId := 1, requestedAmount := 800,
                       releasedAmount := none, status := .pending } ],
    nextId := 1 }

def wEx : WithdrawalRequest :=
  { id := 0, studentId := 1, requestedAmount := 800, releasedAmount := none,
    status := .pending }

theorem c5_fulfill_withdrawal_witness :
    fulfillWithdrawalOp envEx 0 900 9 stW = .error .InsufficientFunds :=
  (c5_fulfill_withdrawal envEx 0 900 9 stW wEx (by decide) rfl rfl).1
    (Or.inl (by decide))

/-- C6: isLocked holds exactly when the subject of the registration is
core, the grade is 10 and the session type is June; on every such locked
registration the drop, swap and switch-type operations return
`CoreSubjectLocked` and leave the state unchanged. -/
theorem c6_core_lock :
    (∀ env r grade session subj,
      findSubject env r.subjectId = some subj →
      (isLocked env r grade session = true ↔
        (subj.isCore = true ∧ grade = 10 ∧
          session.sessionType = SessionType.june))) ∧
    (∀ env s rid reg session actingUser,
      findReg s rid = some reg →
      findSession env reg.sessionId = some session →
      isLocked env reg (env.grade reg.studentId) session = true →
      dropOp env rid actingUser s = .error .CoreSubjectLocked ∧
      (∀ nsid nt, swapOp env rid nsid nt actingUser s =
        .error .CoreSubjectLocked) ∧
      (∀ nt, switchTypeOp env rid nt actingUser s =
        .error .CoreSubjectLocked) ∧
      applyOp env (Op.drop rid actingUser) s = s ∧
      (∀ nsid nt, applyOp env (Op.swap rid nsid nt actingUser) s = s) ∧
      (∀ nt, applyOp env (Op.switchType rid nt actingUser) s = s)) := by
  constructor
  · intro env r grade session subj hsubj
    simp only [isLocked, hsubj]
    simp [Bool.and_eq_true, beq_iff_eq, and_assoc]
  · intro env s rid reg session actingUser hreg hsess hlock
    have hdrop : dropOp env rid actingUser s = .error .CoreSubjectLocked := by
      simp only [dropOp, hreg, hsess]
      rw [if_pos hlock]
    have hswap : ∀ nsid nt, swapOp env rid nsid nt actingUser s =
        .error .CoreSubjectLocked := by
      intro nsid nt
      simp only [swapOp, hreg, hsess]
      rw [if_pos hlock]
    have hswitch : ∀ nt, switchTypeOp env rid nt actingUser s =
        .error .CoreSubjectLocked := by
      intro nt
      simp only [switchTypeOp, hreg, hsess]
      rw [if_pos hlock]
    refine ⟨hdrop, hswap, hswitch, ?_, ?_, ?_⟩
    · simp only [applyOp, applyOpE, hdrop]
    · intro nsid nt
      simp only [applyOp, applyOpE, hswap nsid nt]
    · intro nt
      simp only [applyOp, applyOpE, hswitch nt]

/-- A concrete environment with one core subject (id 5) and a grade-10
student population, and a state with a confirmed registration of that
core subject, for the core-lock witness. -/
def envLock : Env :=
  { subjects := [ { id := 5, priceInSchool := 500, priceExternal := none,
                    isCore := true } ],
    sessions := [ { id := 1, sessionType := .june, status := .active } ],
    grade := fun _ => 10,
    parentLink := fun _ _ => false,
    isAdmin := fun _ => false }

def regLock : Registration :=
  { id := 20, studentId := 3, sessionId := 1, subjectId := 5,
    registrationType := .in_school, priceAtRegistration := 500,
    status := .confirmed, registeredBy := 3 }

def sessLock : Session := { id := 1, sessionType := .june, status := .active }

def stLock : EngineState := { initState with regs := [regLock], nextId := 21 }

theorem c6_core_lock_witness :
    dropOp envLock 20 3 stLock = .error .CoreSubjectLocked :=
  (c6_core_lock.2 envLock stLock 20 regLock sessLock 3 (by decide) (by decide)
    (by decide)).1

/-- The state of the positive-delta swap scenario: student 7 has escrow
500 and one confirmed registration (id 10) of subject 1 at price 500. -/
def stSwapA : EngineState :=
  { initState with
    balances := fun x => if x = 7 then 500 else 0,
    regs := [ { id := 10, studentId := 7, sessionId := 1, subjectId := 1,
                registrationType := .in_school, priceAtRegistration := 500,
                status := .confirmed, registeredBy := 7 } ],
    nextId := 11 }

/-- The state of the negative-delta swap scenario: student 7 has escrow 0
and one confirmed registration (id 10) of subject 2 at price 800. -/
def stSwapB : EngineState :=
  { initState with
    regs := [ { id := 10, studentId := 7, sessionId := 1, subjectId := 2,
                registrationType := .in_school, priceAtRegistration := 800,
                status := .confirmed, registeredBy := 7 } ],
    nextId := 11 }

/-- C7: swapDelta is the new price minus the old price; a positive delta
is debited from the caller, a negative delta is credited to escrow in
absolute value, and a zero delta produces no ledger entry — exercised on
the scenarios of the specification (500 to 800 gives delta 300; 800 to
300 gives delta -500 with 500 credited; equal prices leave the ledger
untouched). -/
theorem c7_swap_delta :
    (∀ oldPrice newPrice : Nat,
      swapDelta oldPrice newPrice = (newPrice : Int) - (oldPrice : Int)) ∧
    (swapDelta 500 800 = 300 ∧
      getBalance (applyOp envEx (Op.swap 10 2 RegType.in_school 7) stSwapA) 7 =
        200 ∧
      (applyOp envEx (Op.swap 10 2 RegType.in_school 7) stSwapA).txns =
        [ { ttype := .debit, amount := 300, reason := .swap_charge,
            studentId := 7, relatedRegistrationId := some 10,
            initiatedBy := 7 } ] ∧
      (findReg (applyOp envEx (Op.swap 10 2 RegType.in_school 7) stSwapA)
          11).map (fun r => (r.subjectId, r.status)) =
        some (2, RegStatus.confirmed)) ∧
    (swapDelta 800 300 = -500 ∧
      getBalance (applyOp envEx (Op.swap 10 3 RegType.in_school 7) stSwapB) 7 =
        500 ∧
      (applyOp envEx (Op.swap 10 3 RegType.in_school 7) stSwapB).txns =
        [ { ttype := .credit, amount := 500, reason := .swap_refund,
            studentId := 7, relatedRegistrationId := some 10,
            initiatedBy := 7 } ] ∧
      (findReg (applyOp envEx (Op.swap 10 3 RegType.in_school 7) stSwapB)
          10).map (fun r => r.status) = some RegStatus.dropped ∧
      (findReg (applyOp envEx (Op.swap 10 3 RegType.in_school 7) stSwapB)
          11).map (fun r => (r.subjectId, r.status)) =
        some (3, RegStatus.confirmed)) ∧
    (swapDelta 500 500 = 0 ∧
      (applyOp envEx (Op.swap 10 4 RegType.in_school 7) stSwapA).txns = [] ∧
      (findReg (applyOp envEx (Op.swap 10 4 RegType.in_school 7) stSwapA)
          11).map (fun r => (r.subjectId, r.status)) =
        some (4, RegStatus.confirmed)) := by
  refine ⟨fun o n => rfl, ?_, ?_, ?_⟩ <;> exact (by decide)

/-- A runtime JavaScript value as seen by `isRole(value: unknown)`:
either a string or any non-string value. -/
inductive JsValue where
  | str (s : String)
  | other
  deriving DecidableEq

/-- The values of the `ROLES` constant of
`packages/validations/src/roles.ts`. -/
def roleStrings : List String := ["admin", "student", "parent"]

/-- The acceptance function of `RoleSchema = z.enum([ROLES.ADMIN,
ROLES.STUDENT, ROLES.PARENT])`: `safeParse` succeeds exactly on those
three strings. -/
def roleSchemaAccepts : JsValue → Bool
  | .str s => roleStrings.contains s
  | .other => false

/-- The `isRole` type guard of roles.ts:
`RoleSchema.safeParse(value).success`. -/
def isRole (v : JsValue) : Bool := roleSchemaAccepts v

/-- The closed role variant encoded by the `Role` type of roles.ts. -/
inductive Role where
  | admin
  | student
  | parent
  deriving DecidableEq

def Role.toStr : Role → String
  | .admin => "admin"
  | .student => "student"
  | .parent => "parent"

/-- The helper `hasRole(userRole, ...allowedRoles)` of roles.ts: the JavaScript
falsy check `!userRole` (null, undefined, or the empty string) returns
false, otherwise `allowedRoles.includes(userRole)` decides. `null` and
`undefined` are both modelled as `none`. -/
def hasRole (userRole : Option String) (allowedRoles : List Role) : Bool :=
  match userRole with
  | none => false
  | some s => if s = "" then false else (allowedRoles.map Role.toStr).contains s

inductive AccessDecision where
  | unauthorized401
  | forbidden403
  | allowed
  deriving DecidableEq

/-- The decision of the `requireRole` middleware of
access-control.middleware.ts: 401 without a session or user, 403 when
`hasRole(user.role, ...allowedRoles)` fails, otherwise the request
proceeds to the handler. -/
def requireRole (allowedRoles : List Role) (hasSession hasUser : Bool)
    (userRole : Option String) : AccessDecision :=
  if !hasSession || !hasUser then .unauthorized401
  else if !(hasRole userRole allowedRoles) then .forbidden403
  else .allowed

inductive LinkStatus where
  | pending
  | approved
  | rejected
  deriving DecidableEq

/-- A row of the `parent_student_link` table as read by the link
service. -/
structure ParentStudentLink where
  parentId : Nat
  studentId : Nat
  status : LinkStatus
  deriving DecidableEq

/-- The check `isParentLinkedToStudent(parentId, studentId)` of the parent-student
link service: `findFirst` on the conjunction (parentId, studentId,
status = approved), coerced to a boolean with `!!link`. The database
table is modelled as the list of its rows. -/
def isParentLinkedToStudent (links : List ParentStudentLink)
    (parentId studentId : Nat) : Bool :=
  (links.find? (fun l =>
    decide (l.parentId = parentId ∧ l.studentId = studentId ∧
            l.status = .approved))).isSome

/-- C8: the role type is a closed variant with exactly the three values
admin, student and parent, and `isRole` (the `RoleSchema` validator)
accepts a value exactly when it is one of the strings "admin",
"student", "parent". -/
theorem c8_is_role :
    (∀ v : JsValue, isRole v = true ↔
      (v = .str "admin" ∨ v = .str "student" ∨ v = .str "parent")) ∧
    (∀ r : Role, isRole (.str (Role.toStr r)) = true) ∧
    (∀ r : Role, r = .admin ∨ r = .student ∨ r = .parent) := by
  refine ⟨?_, ?_, ?_⟩
  · intro v
    cases v with
    | other => simp [isRole, roleSchemaAccepts]
    | str s =>
      by_cases h1 : s = "admin"
      · subst h1; decide
      · by_cases h2 : s = "student"
        · subst h2; decide
        · by_cases h3 : s = "parent"
          · subst h3; decide
          · have b1 : (s == "admin") = false := by simp [h1]
            have b2 : (s == "student") = false := by simp [h2]
            have b3 : (s == "parent") = false := by simp [h3]
            simp [isRole, roleSchemaAccepts, roleStrings, List.contains,
              List.elem, b1, b2, b3, h1, h2, h3]
  · intro r
    cases r <;> rfl
  · intro r
    cases r <;> simp

/-- C9: `hasRole` returns true exactly when the user role is present
(not null or undefined) and equals one of the allowed roles; with an
empty allowed list it is always false, and `requireRole` never lets a
request through when the user has no role. -/
theorem c9_has_role :
    (∀ (userRole : Option String) (allowedRoles : List Role),
      hasRole userRole allowedRoles = true ↔
        ∃ r, r ∈ allowedRoles ∧ userRole = some (Role.toStr r)) ∧
    (∀ userRole, hasRole userRole [] = false) ∧
    (∀ (allowedRoles : List Role) (hasSession hasUser : Bool),
      requireRole allowedRoles hasSession hasUser none = .unauthorized401 ∨
      requireRole allowedRoles hasSession hasUser none = .forbidden403) := by
  refine ⟨?_, ?_, ?_⟩
  · intro userRole allowedRoles
    cases userRole with
    | none => simp [hasRole]
    | some s =>
      by_cases hs : s = ""
      · subst hs
        rw [show hasRole (some "") allowedRoles = false by simp [hasRole]]
        simp only [Bool.false_eq_true, false_iff]
        rintro ⟨r, -, hr⟩
        simp only [Option.some.injEq] at hr
        cases r <;> exact absurd hr (by decide)
      · simp only [hasRole, if_neg hs]
        simp [List.contains, List.elem_iff, List.mem_map, eq_comm]
  · intro userRole
    cases userRole with
    | none => rfl
    | some s => simp [hasRole]
  · intro allowedRoles hasSession hasUser
    cases hasSession <;> cases hasUser <;> simp [requireRole, hasRole]

/-- C10: `isParentLinkedToStudent` returns true exactly when an approved
link row exists for the exact (parent, student) pair; a pending or
rejected link counts the same as no link at all. -/
theorem c10_parent_link :
    (∀ links pid sid,
      isParentLinkedToStudent links pid sid = true ↔
        ∃ l, l ∈ links ∧ l.parentId = pid ∧ l.studentId = sid ∧
          l.status = LinkStatus.approved) ∧
    (∀ pid sid,
      isParentLinkedToStudent
        [ { parentId := pid, studentId := sid, status := .pending } ] pid sid =
          false ∧
      isParentLinkedToStudent
        [ { parentId := pid, studentId := sid, status := .rejected } ] pid sid =
          false) := by
  constructor
  · intro links pid sid
    simp [isParentLinkedToStudent, List.find?_isSome]
  · intro pid sid
    constructor <;> simp [isParentLinkedToStudent, List.find?]

end Reservation
